import Mathlib

/-!
Verification of the connection registry and pooling layer of the pg-mcp
server (`server/database.py`, `server/tools/connection.py`,
`server/tools/query.py`).

Strings are modelled as lists of characters; Python dictionaries as
association lists with unique keys; the SHA-1 based `uuid.uuid5` of the
standard library as an arbitrary pure function of the hashed name; the
network round trips of `asyncpg` (pool creation, `conn.fetch`) as
explicit events and outcome parameters.
-/

deriving instance DecidableEq for Except

namespace PgMcp

/-- Python strings, modelled as lists of characters. -/
abbrev Str := List Char

/-- Python dictionaries with string keys, modelled as association lists.
All dictionaries built by the program have unique keys: entries are only
added through `dictSet` and removed through `dictErase`. -/
abbrev Dict (α : Type) := List (Str × α)

/-- Dictionary lookup, `m[k]` / `m.get(k)`. -/
def dictGet {α : Type} (m : Dict α) (k : Str) : Option α :=
  match m with
  | [] => none
  | (k1, v) :: rest => if k1 = k then some v else dictGet rest k

/-- Python membership test `k in m`. -/
def dictHasKey {α : Type} (m : Dict α) (k : Str) : Bool :=
  (dictGet m k).isSome

/-- Dictionary update `m[k] = v`: replaces the value at an existing key,
otherwise appends the new binding (Python dictionaries are
insertion-ordered). -/
def dictSet {α : Type} (m : Dict α) (k : Str) (v : α) : Dict α :=
  match m with
  | [] => [(k, v)]
  | (k1, v1) :: rest => if k1 = k then (k1, v) :: rest else (k1, v1) :: dictSet rest k v

/-- Dictionary deletion `del m[k]` / `m.pop(k, None)`: removes the binding
of `k` (keys are unique, so removing every occurrence coincides with
removing the single one). -/
def dictErase {α : Type} (m : Dict α) (k : Str) : Dict α :=
  match m with
  | [] => []
  | (k1, v1) :: rest => if k1 = k then dictErase rest k else (k1, v1) :: dictErase rest k

theorem dictGet_dictSet_self {α : Type} (m : Dict α) (k : Str) (v : α) :
    dictGet (dictSet m k v) k = some v := by
  induction m with
  | nil => simp [dictSet, dictGet]
  | cons kv rest ih =>
    obtain ⟨k1, v1⟩ := kv
    by_cases h : k1 = k <;> simp [dictSet, dictGet, h, ih]

theorem dictGet_dictSet_ne {α : Type} (m : Dict α) (k k2 : Str) (v : α) (h : k ≠ k2) :
    dictGet (dictSet m k v) k2 = dictGet m k2 := by
  induction m with
  | nil => simp [dictSet, dictGet, h]
  | cons kv rest ih =>
    obtain ⟨k1, v1⟩ := kv
    by_cases h1 : k1 = k
    · subst h1
      simp [dictSet, dictGet, h]
    · simp [dictSet, dictGet, h1, ih]

theorem dictGet_dictErase_self {α : Type} (m : Dict α) (k : Str) :
    dictGet (dictErase m k) k = none := by
  induction m with
  | nil => simp [dictErase, dictGet]
  | cons kv rest ih =>
    obtain ⟨k1, v1⟩ := kv
    by_cases h : k1 = k <;> simp [dictErase, dictGet, h, ih]

theorem dictGet_dictErase_ne {α : Type} (m : Dict α) (k k2 : Str) (h : k ≠ k2) :
    dictGet (dictErase m k) k2 = dictGet m k2 := by
  induction m with
  | nil => simp [dictErase, dictGet]
  | cons kv rest ih =>
    obtain ⟨k1, v1⟩ := kv
    by_cases h1 : k1 = k
    · subst h1
      simp [dictErase, dictGet, h, ih]
    · simp [dictErase, dictGet, h1, ih]

theorem dictHasKey_dictSet {α : Type} (m : Dict α) (k k2 : Str) (v : α) :
    dictHasKey (dictSet m k v) k2 = (dictHasKey m k2 || decide (k = k2)) := by
  by_cases h : k = k2
  · subst h
    simp [dictHasKey, dictGet_dictSet_self]
  · simp [dictHasKey, dictGet_dictSet_ne m k k2 v h, h]

theorem dictSet_same {α : Type} (m : Dict α) (k : Str) (v : α)
    (h : dictGet m k = some v) : dictSet m k v = m := by
  induction m with
  | nil => simp [dictGet] at h
  | cons kv rest ih =>
    obtain ⟨k1, v1⟩ := kv
    by_cases h1 : k1 = k
    · simp [dictGet, h1] at h
      simp [dictSet, h1, h]
    · simp [dictGet, h1] at h
      simp [dictSet, h1, ih h]

theorem dictSet_dictSet {α : Type} (m : Dict α) (k : Str) (v v2 : α) :
    dictSet (dictSet m k v) k v2 = dictSet m k v2 := by
  induction m with
  | nil => simp [dictSet]
  | cons kv rest ih =>
    obtain ⟨k1, v1⟩ := kv
    by_cases h : k1 = k <;> simp [dictSet, h, ih]

/-! Model of `urllib.parse.urlparse` from the Python standard library, as
used by `Database.postgres_connection_to_uuid`. It covers the documented
behaviour on ASCII URLs without control characters or whitespace (the only
inputs this program ever parses): scheme splitting, netloc splitting with
the IPv6 bracket check (the one `ValueError` this parser can raise on such
inputs), fragment, query and params splitting. -/

/-- Python exceptions raised by this layer: `ValueError(msg)` from the
registry and the URL parser, and the engine exception re-raised by
`execute_query` (whatever `asyncpg` raised, carrying its message). -/
inductive PyErr where
  | valueError (msg : Str)
  | engineError (msg : Str)
deriving DecidableEq, Repr

/-- Split a list at the first occurrence of `c`, returning the parts
before and after it (like Python `s.split(c, 1)` when `c` occurs). -/
def splitAtFirst (c : Char) : Str → Option (Str × Str)
  | [] => none
  | x :: xs =>
    if x = c then some ([], xs)
    else
      match splitAtFirst c xs with
      | none => none
      | some (a, b) => some (x :: a, b)

/-- Take characters until one of `stops` is met, returning the prefix and
the rest (like `_splitnetloc`: the delimiter stays in the rest). -/
def splitUntilAny (stops : List Char) : Str → Str × Str
  | [] => ([], [])
  | x :: xs =>
    if x ∈ stops then ([], x :: xs)
    else
      let (a, b) := splitUntilAny stops xs
      (x :: a, b)

/-- Split at the last occurrence of `c` (used for Python `url.rfind` in
`_splitparams`). -/
def splitAtLast (c : Char) (l : Str) : Option (Str × Str) :=
  match splitAtFirst c l.reverse with
  | none => none
  | some (a, b) => some (b.reverse, a.reverse)

/-- Characters allowed in a URL scheme (`scheme_chars` in `urllib.parse`). -/
def schemeChar (c : Char) : Bool :=
  c.isAlpha || c.isDigit || c = '+' || c = '-' || c = '.'

/-- The prefix before the first colon counts as a scheme when it is
nonempty, starts with an ASCII letter and consists of scheme characters. -/
def validScheme : Str → Bool
  | [] => false
  | c :: cs => c.isAlpha && (c :: cs).all schemeChar

/-- Result of `urllib.parse.urlsplit`. -/
structure SplitResult where
  scheme : Str
  netloc : Str
  path : Str
  query : Str
  fragment : Str
deriving DecidableEq, Repr

/-- Fragment and query splitting of `urlsplit`: the fragment is split off
first (at the first hash sign), then the query (at the first question
mark of what is left). -/
def splitRest (scheme netloc rest : Str) : SplitResult :=
  let (rest1, fragment) :=
    match splitAtFirst '#' rest with
    | none => (rest, [])
    | some (a, b) => (a, b)
  let (path, query) :=
    match splitAtFirst '?' rest1 with
    | none => (rest1, [])
    | some (a, b) => (a, b)
  ⟨scheme, netloc, path, query, fragment⟩

/-- Model of `urllib.parse.urlsplit`: strip the scheme, split the netloc
after a leading double slash (checking the IPv6 brackets), then split
fragment and query off the remainder. -/
def urlsplit (url : Str) : Except PyErr SplitResult :=
  let (scheme, rest) :=
    match splitAtFirst ':' url with
    | none => (([] : Str), url)
    | some (before, after) =>
      if validScheme before then (before.map Char.toLower, after) else ([], url)
  match rest with
  | '/' :: '/' :: rest2 =>
    let (netloc, rest3) := splitUntilAny ['/', '?', '#'] rest2
    if ('[' ∈ netloc ∧ ']' ∉ netloc) ∨ (']' ∈ netloc ∧ '[' ∉ netloc) then
      .error (.valueError ("Invalid IPv6 URL".data))
    else
      .ok (splitRest scheme netloc rest3)
  | _ => .ok (splitRest scheme [] rest)

/-- The `uses_params` scheme list of `urllib.parse`: only for these
schemes does `urlparse` split params off the path. `postgresql` is not
among them. -/
def usesParams : List Str :=
  [ "".data, "ftp".data, "hdl".data, "prospero".data, "http".data, "imap".data,
    "https".data, "shttp".data, "rtsp".data, "rtspu".data, "sip".data, "sips".data,
    "mms".data, "sftp".data, "tel".data ]

/-- Model of `urllib.parse._splitparams`: split the params off the last
path segment (only called when a semicolon is present). -/
def splitParamsPy (url : Str) : Str × Str :=
  if '/' ∈ url then
    match splitAtLast '/' url with
    | none => (url, [])
    | some (before, lastSeg) =>
      match splitAtFirst ';' lastSeg with
      | none => (url, [])
      | some (a, b) => (before ++ '/' :: a, b)
  else
    match splitAtFirst ';' url with
    | none => (url, [])
    | some (a, b) => (a, b)

/-- Result of `urllib.parse.urlparse`. -/
structure ParseResult where
  scheme : Str
  netloc : Str
  path : Str
  params : Str
  query : Str
  fragment : Str
deriving DecidableEq, Repr

/-- Model of `urllib.parse.urlparse`: `urlsplit` followed by params
splitting for the schemes that use params. -/
def urlparse (url : Str) : Except PyErr ParseResult :=
  match urlsplit url with
  | .error e => .error e
  | .ok s =>
    if s.scheme ∈ usesParams ∧ ';' ∈ s.path then
      let (p, params) := splitParamsPy s.path
      .ok ⟨s.scheme, s.netloc, p, params, s.query, s.fragment⟩
    else
      .ok ⟨s.scheme, s.netloc, s.path, [], s.query, s.fragment⟩

/-! Model of `server/database.py` and of the tools in
`server/tools/connection.py` and `server/tools/query.py`. -/

/-- The canonical scheme prefix prepended by `register_connection`. -/
def schemePg : Str := "postgresql://".data

/-- A pool handle as created by `asyncpg.create_pool`: the keyword
arguments passed at creation plus the number of currently leased
connections (`acquire` without a matching release). -/
structure Pool where
  dsn : Str
  min_size : Nat
  max_size : Nat
  command_timeout : Nat
  default_transaction_read_only : Str
  leased : Nat
deriving DecidableEq, Repr

/-- The pool `asyncpg.create_pool` builds in `Database.initialize`:
bound to the resolved connection string, `min_size=2`, `max_size=10`,
`command_timeout=60.0` and the server session setting
`default_transaction_read_only="true"`; no connection leased yet. -/
def mkPool (connection_string : Str) : Pool :=
  { dsn := connection_string
    min_size := 2
    max_size := 10
    command_timeout := 60
    default_transaction_read_only := "true".data
    leased := 0 }

/-- The `Database` manager state: `self._pools`, `self._connection_map`
and `self._reverse_map`. -/
structure Database where
  pools : Dict Pool
  connection_map : Dict Str
  reverse_map : Dict Str
deriving DecidableEq, Repr

/-- `Database.__init__`: no pools, no mappings. -/
def Database.empty : Database := ⟨[], [], []⟩

/-- Network activity performed against the database server: a
`asyncpg.create_pool` call (connect and handshake) or a `conn.fetch`
round trip. -/
inductive NetEvent where
  | createPool (dsn : Str)
  | fetchAttempt
deriving DecidableEq, Repr

/-- Normalization at the head of `register_connection`: prepend the
`postgresql://` scheme when absent. -/
def normalizeConnString (connection_string : Str) : Str :=
  if schemePg.isPrefixOf connection_string then connection_string
  else schemePg ++ connection_string

/-- Embedding of `Database.postgres_connection_to_uuid`: parse the
connection string and hash `parsed.netloc + parsed.path`. The SHA-1
based `uuid.uuid5` with the fixed default namespace `NAMESPACE_URL` is a
pure deterministic function of the hashed name; it is abstracted here as
the parameter `uuid5`. -/
def postgres_connection_to_uuid (uuid5 : Str → Str) (connection_string : Str) :
    Except PyErr Str :=
  match urlparse connection_string with
  | .error e => .error e
  | .ok parsed => .ok (uuid5 (parsed.netloc ++ parsed.path))

/-- Embedding of `Database.register_connection`: normalize the scheme,
return the existing identifier when the exact string is already in
`self._reverse_map`, otherwise derive the UUID and store both mappings.
No network activity takes place. -/
def register_connection (uuid5 : Str → Str) (db : Database) (connection_string : Str) :
    Except PyErr (Str × Database) :=
  match dictGet db.reverse_map (normalizeConnString connection_string) with
  | some conn_id => .ok (conn_id, db)
  | none =>
    match postgres_connection_to_uuid uuid5 (normalizeConnString connection_string) with
    | .error e => .error e
    | .ok conn_id =>
      .ok (conn_id,
        { db with
            connection_map := dictSet db.connection_map conn_id (normalizeConnString connection_string)
            reverse_map := dictSet db.reverse_map (normalizeConnString connection_string) conn_id })

/-- Embedding of `Database.get_connection_string`: raises
`ValueError("Unknown connection ID: ...")` for an unregistered
identifier. -/
def get_connection_string (db : Database) (conn_id : Str) : Except PyErr Str :=
  match dictGet db.connection_map conn_id with
  | none => .error (.valueError ("Unknown connection ID: ".data ++ conn_id))
  | some cs => .ok cs

/-- Embedding of `Database.initialize` (named `initializePool` here):
reject a falsy identifier, return unchanged when a pool already exists,
otherwise resolve the connection string and create the pool. The second
component lists the network activity performed. -/
def initializePool (db : Database) (conn_id : Str) :
    Except PyErr Database × List NetEvent :=
  if conn_id = [] then
    (.error (.valueError ("Connection ID is required".data)), [])
  else if dictHasKey db.pools conn_id then
    (.ok db, [])
  else
    match get_connection_string db conn_id with
    | .error e => (.error e, [])
    | .ok cs =>
      (.ok { db with pools := dictSet db.pools conn_id (mkPool cs) },
       [NetEvent.createPool cs])

/-- One connection leased from the pool of `conn_id`
(`pool.acquire().__aenter__`). -/
def leaseOne (db : Database) (conn_id : Str) : Database :=
  match dictGet db.pools conn_id with
  | none => db
  | some p =>
    { db with pools := dictSet db.pools conn_id { p with leased := p.leased + 1 } }

/-- The leased connection returned to the pool of `conn_id` when the
`async with pool.acquire()` block exits, on every exit path. -/
def releaseOne (db : Database) (conn_id : Str) : Database :=
  match dictGet db.pools conn_id with
  | none => db
  | some p =>
    { db with pools := dictSet db.pools conn_id { p with leased := p.leased - 1 } }

/-- Entry of `async with db.get_connection(conn_id)`: reject a falsy
identifier, initialize the pool when absent, then lease one connection. -/
def get_connection_enter (db : Database) (conn_id : Str) :
    Except PyErr Database × List NetEvent :=
  if conn_id = [] then
    (.error (.valueError ("Connection ID is required".data)), [])
  else if dictHasKey db.pools conn_id then
    (.ok (leaseOne db conn_id), [])
  else
    match initializePool db conn_id with
    | (.error e, evs) => (.error e, evs)
    | (.ok db2, evs) => (.ok (leaseOne db2 conn_id), evs)

/-- A result row, `dict(record)`: an ordered mapping from column name to
value (values abstracted as strings). -/
abbrev Row := List (Str × Str)

/-- Embedding of `execute_query` from `server/tools/query.py`. The
engine round trip `conn.fetch(query, *params)` is abstracted as the
outcome parameter `fetch` (its rows already in `dict(record)` form). The
body runs inside `async with db.get_connection(conn_id)`, whose exit
releases the lease on the success path and on the error path alike; a
failing fetch is logged and re-raised unchanged (a bare `raise`), never
retried. Returns the result, the final state and the network activity. -/
def execute_query (fetch : Except Str (List Row)) (db : Database) (conn_id : Str) :
    Except PyErr (List Row) × Database × List NetEvent :=
  match get_connection_enter db conn_id with
  | (.error e, evs) => (.error e, db, evs)
  | (.ok db1, evs) =>
    match fetch with
    | .ok records => (.ok records, releaseOne db1 conn_id, evs ++ [NetEvent.fetchAttempt])
    | .error msg =>
      (.error (.engineError msg), releaseOne db1 conn_id, evs ++ [NetEvent.fetchAttempt])

/-- Embedding of `Database.close`: with a truthy identifier, close and
remove that pool entry when present (never touching the mappings); with
`None` or a falsy identifier, close every pool. -/
def close (db : Database) (conn_id : Option Str) : Database :=
  match conn_id with
  | some cid =>
    if cid ≠ [] then
      if dictHasKey db.pools cid then { db with pools := dictErase db.pools cid }
      else db
    else { db with pools := [] }
  | none => { db with pools := [] }

/-- Mapping removal step of the `disconnect` tool:
`connection_string = db._connection_map.pop(conn_id, None)` followed by
`if connection_string in db._reverse_map: del db._reverse_map[connection_string]`. -/
def disconnectErase (db1 : Database) (conn_id : Str) : Database :=
  match dictGet db1.connection_map conn_id with
  | none => { db1 with connection_map := dictErase db1.connection_map conn_id }
  | some cs =>
    if dictHasKey db1.reverse_map cs then
      { db1 with
          connection_map := dictErase db1.connection_map conn_id
          reverse_map := dictErase db1.reverse_map cs }
    else
      { db1 with connection_map := dictErase db1.connection_map conn_id }

/-- Embedding of the `disconnect` tool from `server/tools/connection.py`:
report failure for an unknown identifier; otherwise close the pool, pop
the identifier from `self._connection_map` and delete its descriptor
from `self._reverse_map`. -/
def disconnect (db : Database) (conn_id : Str) : Bool × Database :=
  if dictHasKey db.connection_map conn_id then
    (true, disconnectErase (close db (some conn_id)) conn_id)
  else
    (false, db)

/-! Registry invariants and reachable states. -/

/-- Every identifier with a pool entry is present in the
identifier-to-descriptor map `self._connection_map`. -/
def PoolsRegistered (db : Database) : Prop :=
  ∀ conn_id : Str,
    dictHasKey db.pools conn_id = true → dictHasKey db.connection_map conn_id = true

/-- Every forward entry is mirrored in the reverse map: when
`self._connection_map` sends an identifier to a descriptor,
`self._reverse_map` sends that descriptor back to the identifier. -/
def CmMirrored (db : Database) : Prop :=
  ∀ conn_id cs : Str,
    dictGet db.connection_map conn_id = some cs →
    dictGet db.reverse_map cs = some conn_id

/-- Every reverse entry stores exactly the UUID the registry derives for
its descriptor. -/
def RmTyped (uuid5 : Str → Str) (db : Database) : Prop :=
  ∀ cs conn_id : Str,
    dictGet db.reverse_map cs = some conn_id →
    postgres_connection_to_uuid uuid5 cs = .ok conn_id

/-- The inductive invariant of the registry maps. -/
def RegistryInv (uuid5 : Str → Str) (db : Database) : Prop :=
  PoolsRegistered db ∧ CmMirrored db ∧ RmTyped uuid5 db

/-- The states the manager can reach by any sequence of
`register_connection`, `disconnect`, `initialize` and `close` calls. -/
inductive Reachable (uuid5 : Str → Str) : Database → Prop where
  | empty : Reachable uuid5 Database.empty
  | register_step {db : Database} {cs conn_id : Str} {db2 : Database} :
      Reachable uuid5 db →
      register_connection uuid5 db cs = .ok (conn_id, db2) →
      Reachable uuid5 db2
  | disconnect_step {db : Database} {cid : Str} {r : Bool} {db2 : Database} :
      Reachable uuid5 db →
      disconnect db cid = (r, db2) →
      Reachable uuid5 db2
  | initialize_step {db : Database} {cid : Str} {db2 : Database} {evs : List NetEvent} :
      Reachable uuid5 db →
      initializePool db cid = (.ok db2, evs) →
      Reachable uuid5 db2
  | close_step {db : Database} (cid : Option Str) :
      Reachable uuid5 db →
      Reachable uuid5 (close db cid)

theorem close_connection_map (db : Database) (cid : Option Str) :
    (close db cid).connection_map = db.connection_map := by
  unfold close
  cases cid with
  | none => rfl
  | some c =>
    by_cases h : c = []
    · simp [h]
    · simp only [h, ne_eq, not_false_eq_true, if_true]
      split <;> rfl

theorem close_reverse_map (db : Database) (cid : Option Str) :
    (close db cid).reverse_map = db.reverse_map := by
  unfold close
  cases cid with
  | none => rfl
  | some c =>
    by_cases h : c = []
    · simp [h]
    · simp only [h, ne_eq, not_false_eq_true, if_true]
      split <;> rfl

theorem dictHasKey_dictErase_imp {α : Type} (m : Dict α) (k k2 : Str)
    (h : dictHasKey (dictErase m k) k2 = true) :
    dictHasKey m k2 = true ∧ k ≠ k2 := by
  by_cases hk : k = k2
  · subst hk
    simp [dictHasKey, dictGet_dictErase_self] at h
  · rw [dictHasKey, dictGet_dictErase_ne m k k2 hk] at h
    exact ⟨h, hk⟩

theorem close_pools_hasKey (db : Database) (cid : Option Str) (k : Str)
    (h : dictHasKey (close db cid).pools k = true) :
    dictHasKey db.pools k = true ∧ cid ≠ some k := by
  unfold close at h
  cases cid with
  | none => simp [dictHasKey, dictGet] at h
  | some c =>
    by_cases hc : c = []
    · subst hc
      simp only [reduceCtorEq, ne_eq, not_true_eq_false, if_false] at h
      simp [dictHasKey, dictGet] at h
    · simp only [hc, ne_eq, not_false_eq_true, if_true] at h
      split at h
      · obtain ⟨h1, h2⟩ := dictHasKey_dictErase_imp db.pools c k h
        exact ⟨h1, by simp [Ne, h2]⟩
      · next hnot =>
        refine ⟨h, ?_⟩
        intro hck
        cases hck
        exact absurd h hnot

/-- The pool entry of a truthy identifier is gone after `close`. -/
theorem close_pools_self (db : Database) (c : Str) (hne : c ≠ []) :
    dictHasKey (close db (some c)).pools c = false := by
  unfold close
  simp only [hne, ne_eq, not_false_eq_true, if_true]
  split
  · simp [dictHasKey, dictGet_dictErase_self]
  · next h => exact Bool.not_eq_true _ ▸ (by revert h; cases dictHasKey db.pools c <;> simp)

theorem dictGet_dictErase_imp {α : Type} (m : Dict α) (k k2 : Str) (v : α)
    (h : dictGet (dictErase m k) k2 = some v) :
    dictGet m k2 = some v ∧ k ≠ k2 := by
  by_cases hk : k = k2
  · subst hk
    rw [dictGet_dictErase_self] at h
    cases h
  · rw [dictGet_dictErase_ne m k k2 hk] at h
    exact ⟨h, hk⟩

/-- A successful `register_connection` returns exactly the UUID derived
from the normalized descriptor (whether the descriptor was fresh or an
exact-string hit in the reverse map). -/
theorem register_ok_uuid (uuid5 : Str → Str) (db : Database) (cs conn_id : Str)
    (db2 : Database) (hT : RmTyped uuid5 db)
    (h : register_connection uuid5 db cs = .ok (conn_id, db2)) :
    postgres_connection_to_uuid uuid5 (normalizeConnString cs) = .ok conn_id := by
  unfold register_connection at h
  split at h
  next i heq =>
    injection h with h1
    injection h1 with h2 h3
    subst h2
    exact hT _ _ heq
  next heq =>
    split at h
    next e heq2 => exact Except.noConfusion h
    next i heq2 =>
      injection h with h1
      injection h1 with h2 h3
      subst h2
      exact heq2

theorem register_preserves_inv (uuid5 : Str → Str) (db : Database) (cs conn_id : Str)
    (db2 : Database) (hInv : RegistryInv uuid5 db)
    (h : register_connection uuid5 db cs = .ok (conn_id, db2)) :
    RegistryInv uuid5 db2 := by
  obtain ⟨hP, hM, hT⟩ := hInv
  unfold register_connection at h
  split at h
  next i heq =>
    injection h with h1
    injection h1 with h2 h3
    subst h3
    exact ⟨hP, hM, hT⟩
  next heq =>
    split at h
    next e heq2 => exact Except.noConfusion h
    next i heq2 =>
      injection h with h1
      injection h1 with h2 h3
      subst h2
      subst h3
      refine ⟨?_, ?_, ?_⟩
      · intro k hk
        have hk2 := hP k hk
        show dictHasKey (dictSet db.connection_map i (normalizeConnString cs)) k = true
        rw [dictHasKey_dictSet]
        simp [hk2]
      · intro k c hkc
        by_cases hki : k = i
        · subst hki
          rw [dictGet_dictSet_self] at hkc
          injection hkc with hc
          subst hc
          exact dictGet_dictSet_self _ _ _
        · rw [dictGet_dictSet_ne _ _ _ _ (fun hh => hki hh.symm)] at hkc
          have hmk := hM k c hkc
          by_cases hcc : c = normalizeConnString cs
          · subst hcc
            rw [heq] at hmk
            cases hmk
          · rw [dictGet_dictSet_ne _ _ _ _ (fun hh => hcc hh.symm)]
            exact hmk
      · intro c k hck
        by_cases hcc : c = normalizeConnString cs
        · subst hcc
          rw [dictGet_dictSet_self] at hck
          injection hck with hk
          subst hk
          exact heq2
        · rw [dictGet_dictSet_ne _ _ _ _ (fun hh => hcc hh.symm)] at hck
          exact hT c k hck

theorem disconnect_preserves_inv (uuid5 : Str → Str) (db : Database) (cid : Str)
    (r : Bool) (db2 : Database) (hInv : RegistryInv uuid5 db)
    (h : disconnect db cid = (r, db2)) : RegistryInv uuid5 db2 := by
  obtain ⟨hP, hM, hT⟩ := hInv
  unfold disconnect at h
  split at h
  case isFalse =>
    injection h with h1 h2
    subst h2
    exact ⟨hP, hM, hT⟩
  case isTrue hHas =>
    injection h with h1 h2
    subst h2
    unfold disconnectErase
    rw [close_connection_map]
    cases hcid : dictGet db.connection_map cid with
    | none =>
      simp only [dictHasKey, hcid, Option.isSome_none] at hHas
      exact Bool.noConfusion hHas
    | some cs0 =>
      have hrm0 := hM cid cs0 hcid
      rw [close_reverse_map]
      simp only [dictHasKey, hrm0, Option.isSome_some, if_true]
      refine ⟨?_, ?_, ?_⟩
      · intro k hk
        simp only at hk
        obtain ⟨hk1, hk2⟩ := close_pools_hasKey db (some cid) k hk
        have hk3 : cid ≠ k := fun hh => hk2 (by rw [hh])
        have hck := hP k hk1
        simp only [dictHasKey] at hck ⊢
        rw [dictGet_dictErase_ne _ _ _ hk3]
        exact hck
      · intro k c hkc
        simp only at hkc ⊢
        obtain ⟨hkc1, hkc2⟩ := dictGet_dictErase_imp _ _ _ _ hkc
        have hrmc := hM k c hkc1
        have hcne : cs0 ≠ c := by
          intro hh
          subst hh
          rw [hrm0] at hrmc
          injection hrmc with hkk
          exact hkc2 hkk
        rw [dictGet_dictErase_ne _ _ _ hcne]
        exact hrmc
      · intro c k hck
        simp only at hck
        obtain ⟨hck1, _⟩ := dictGet_dictErase_imp _ _ _ _ hck
        exact hT c k hck1

theorem initialize_preserves_inv (uuid5 : Str → Str) (db : Database) (cid : Str)
    (db2 : Database) (evs : List NetEvent) (hInv : RegistryInv uuid5 db)
    (h : initializePool db cid = (.ok db2, evs)) : RegistryInv uuid5 db2 := by
  obtain ⟨hP, hM, hT⟩ := hInv
  unfold initializePool at h
  split at h
  · exact Prod.noConfusion h (fun h1 _ => Except.noConfusion h1)
  · split at h
    · injection h with h1 h2
      injection h1 with h3
      subst h3
      exact ⟨hP, hM, hT⟩
    · split at h
      next heq => exact Prod.noConfusion h (fun h1 _ => Except.noConfusion h1)
      next cs heq =>
        have hm : dictGet db.connection_map cid = some cs := by
          unfold get_connection_string at heq
          cases hget : dictGet db.connection_map cid with
          | none => rw [hget] at heq; exact Except.noConfusion heq
          | some c2 =>
            rw [hget] at heq
            injection heq with hc2
            rw [hc2]
        injection h with h1 h2
        injection h1 with h3
        subst h3
        refine ⟨?_, hM, hT⟩
        intro k hk
        rw [dictHasKey_dictSet] at hk
        rcases Bool.or_eq_true_iff.mp hk with hk1 | hk2
        · exact hP k hk1
        · have hck : cid = k := of_decide_eq_true hk2
          subst hck
          simp [dictHasKey, hm]

theorem close_preserves_inv (uuid5 : Str → Str) (db : Database) (cid : Option Str)
    (hInv : RegistryInv uuid5 db) : RegistryInv uuid5 (close db cid) := by
  obtain ⟨hP, hM, hT⟩ := hInv
  refine ⟨?_, ?_, ?_⟩
  · intro k hk
    obtain ⟨hk1, _⟩ := close_pools_hasKey db cid k hk
    rw [close_connection_map]
    exact hP k hk1
  · intro k c hkc
    rw [close_connection_map] at hkc
    rw [close_reverse_map]
    exact hM k c hkc
  · intro c k hck
    rw [close_reverse_map] at hck
    exact hT c k hck

/-- The registry invariant holds in every reachable state. -/
theorem reachable_inv (uuid5 : Str → Str) (db : Database)
    (h : Reachable uuid5 db) : RegistryInv uuid5 db := by
  induction h with
  | empty =>
    refine ⟨?_, ?_, ?_⟩
    · intro k hk
      simp [dictHasKey, dictGet, Database.empty] at hk
    · intro k c hkc
      simp [dictGet, Database.empty] at hkc
    · intro c k hck
      simp [dictGet, Database.empty] at hck
  | register_step hr hstep ih => exact register_preserves_inv _ _ _ _ _ ih hstep
  | disconnect_step hr hstep ih => exact disconnect_preserves_inv _ _ _ _ _ ih hstep
  | initialize_step hr hstep ih => exact initialize_preserves_inv _ _ _ _ _ ih hstep
  | close_step cid hr ih => exact close_preserves_inv _ _ cid ih

/-! Interleaving model of N concurrent `Database.initialize` calls for one
fresh registered identifier. Each task executes the body of
`initialize`: it first evaluates the membership check
`conn_id not in self._pools` (synchronously — the event loop cannot
switch inside it); when the pool is absent it proceeds to
`self._pools[conn_id] = await asyncpg.create_pool(...)`, suspending at
the `await`; when the creation finishes, the pool construction has
happened and the assignment stores the pool. There is no lock, so any
number of tasks can pass the check before the first assignment. Task
identity is irrelevant to the counted quantity, so tasks are abstracted
to how many are at each program point. -/

/-- Counting state of N concurrent `initialize(conn_id)` calls:
`nStart` tasks have not yet evaluated the membership check, `nCreating`
are suspended inside `await asyncpg.create_pool`, `nDone` have returned;
`hasPool` is `conn_id in self._pools`; `creations` counts completed
`asyncpg.create_pool` calls (underlying pool constructions). -/
structure ConcState where
  nStart : Nat
  nCreating : Nat
  nDone : Nat
  hasPool : Bool
  creations : Nat
deriving DecidableEq, Repr

/-- Scheduler events: `check` runs one waiting task up to and including
the membership check (the task returns at once when the pool is already
present, otherwise it enters the creation call and suspends);
`finishCreate` completes one in-flight `asyncpg.create_pool` call and
runs the assignment `self._pools[conn_id] = ...`. -/
inductive ConcEvent where
  | check
  | finishCreate
deriving DecidableEq, Repr

/-- One scheduler step; `none` when no task is at the required point. -/
def concStep (s : ConcState) : ConcEvent → Option ConcState
  | .check =>
    match s.nStart with
    | 0 => none
    | n + 1 =>
      if s.hasPool then some { s with nStart := n, nDone := s.nDone + 1 }
      else some { s with nStart := n, nCreating := s.nCreating + 1 }
  | .finishCreate =>
    match s.nCreating with
    | 0 => none
    | n + 1 =>
      some { s with
               nCreating := n
               nDone := s.nDone + 1
               hasPool := true
               creations := s.creations + 1 }

/-- Run a schedule of events from a state. -/
def concRun (evs : List ConcEvent) (s : ConcState) : Option ConcState :=
  match evs with
  | [] => some s
  | e :: rest =>
    match concStep s e with
    | none => none
    | some s2 => concRun rest s2

/-- Initial state: N concurrent callers, no pool entry for the fresh
identifier, no construction yet. -/
def concInit (n : Nat) : ConcState := ⟨n, 0, 0, false, 0⟩

/-- Inductive invariant of the interleaving model. -/
def ConcInv (n : Nat) (s : ConcState) : Prop :=
  s.nStart + s.nCreating + s.nDone = n ∧
  s.creations ≤ s.nDone ∧
  (s.hasPool = true ↔ 1 ≤ s.creations) ∧
  (1 ≤ s.nDone → 1 ≤ s.creations)

theorem concStep_inv (n : Nat) (s s2 : ConcState) (e : ConcEvent)
    (hInv : ConcInv n s) (h : concStep s e = some s2) : ConcInv n s2 := by
  obtain ⟨h1, h2, h3, h4⟩ := hInv
  cases e with
  | check =>
    simp only [concStep] at h
    split at h
    · exact Option.noConfusion h
    · next m hs =>
      split at h
      · next hp =>
        injection h with h5
        subst h5
        have hc := h3.mp hp
        refine ⟨?_, ?_, ?_, ?_⟩
        · simp only []
          omega
        · simp only []
          omega
        · simpa using h3
        · intro _
          exact hc
      · next hp =>
        injection h with h5
        subst h5
        refine ⟨?_, ?_, ?_, ?_⟩
        · simp only []
          omega
        · simp only []
          omega
        · simpa using h3
        · intro hd
          exact h4 hd
  | finishCreate =>
    simp only [concStep] at h
    split at h
    · exact Option.noConfusion h
    · next m hs =>
      injection h with h5
      subst h5
      refine ⟨?_, ?_, ?_, ?_⟩
      · simp only []
        omega
      · simp only []
        omega
      · simp only []
        simp
      · intro _
        simp only []
        omega

theorem concRun_inv (n : Nat) (evs : List ConcEvent) (s s2 : ConcState)
    (hInv : ConcInv n s) (h : concRun evs s = some s2) : ConcInv n s2 := by
  induction evs generalizing s with
  | nil =>
    unfold concRun at h
    injection h with h5
    subst h5
    exact hInv
  | cons e rest ih =>
    unfold concRun at h
    cases hstep : concStep s e with
    | none => rw [hstep] at h; exact Option.noConfusion h
    | some s1 =>
      rw [hstep] at h
      exact ih s1 (concStep_inv n s s1 e hInv hstep) h

theorem concInit_inv (n : Nat) : ConcInv n (concInit n) := by
  refine ⟨by simp [concInit], by simp [concInit], ?_, by simp [concInit]⟩
  simp [concInit]

/-! Helper lemmas about the operations. -/

theorem p2u_ok (uuid5 : Str → Str) (cs : Str) (p : ParseResult)
    (hp : urlparse cs = .ok p) :
    postgres_connection_to_uuid uuid5 cs = .ok (uuid5 (p.netloc ++ p.path)) := by
  unfold postgres_connection_to_uuid
  rw [hp]

theorem register_preserves_rmTyped (uuid5 : Str → Str) (db : Database)
    (cs conn_id : Str) (db2 : Database) (hT : RmTyped uuid5 db)
    (h : register_connection uuid5 db cs = .ok (conn_id, db2)) :
    RmTyped uuid5 db2 := by
  unfold register_connection at h
  split at h
  next i heq =>
    injection h with h1
    injection h1 with h2 h3
    subst h3
    exact hT
  next heq =>
    split at h
    next e heq2 => exact Except.noConfusion h
    next i heq2 =>
      injection h with h1
      injection h1 with h2 h3
      subst h2
      subst h3
      intro c k hck
      by_cases hcc : c = normalizeConnString cs
      · subst hcc
        rw [dictGet_dictSet_self] at hck
        injection hck with hk
        subst hk
        exact heq2
      · rw [dictGet_dictSet_ne _ _ _ _ (fun hh => hcc hh.symm)] at hck
        exact hT c k hck

/-- Shared core of the unknown-identifier behaviour: with a truthy
identifier that has neither a pool entry nor a forward-map entry,
`execute_query` raises the `Unknown connection ID` error of
`get_connection_string`, leaves the state untouched and performs no
network activity. -/
theorem execute_query_unknown_id (fetch : Except Str (List Row)) (db : Database)
    (conn_id : Str) (hne : conn_id ≠ [])
    (habs : dictGet db.connection_map conn_id = none)
    (hpool : dictHasKey db.pools conn_id = false) :
    execute_query fetch db conn_id =
      (.error (.valueError ("Unknown connection ID: ".data ++ conn_id)), db, []) := by
  unfold execute_query get_connection_enter initializePool get_connection_string
  simp only [if_neg hne, hpool, habs, Bool.false_eq_true, if_false]

theorem initializePool_events (db : Database) (cid : Str)
    (r : Except PyErr Database) (evs : List NetEvent)
    (h : initializePool db cid = (r, evs)) :
    evs = [] ∨ ∃ d : Str, evs = [NetEvent.createPool d] := by
  unfold initializePool at h
  split at h
  · injection h with h1 h2
    exact Or.inl h2.symm
  · split at h
    · injection h with h1 h2
      exact Or.inl h2.symm
    · split at h
      · injection h with h1 h2
        exact Or.inl h2.symm
      · next cs heq =>
        injection h with h1 h2
        exact Or.inr ⟨cs, h2.symm⟩

theorem get_connection_enter_events (db : Database) (cid : Str)
    (r : Except PyErr Database) (evs : List NetEvent)
    (h : get_connection_enter db cid = (r, evs)) :
    evs = [] ∨ ∃ d : Str, evs = [NetEvent.createPool d] := by
  unfold get_connection_enter at h
  split at h
  · injection h with h1 h2
    exact Or.inl h2.symm
  · split at h
    · injection h with h1 h2
      exact Or.inl h2.symm
    · split at h
      next e evs0 heq =>
        injection h with h1 h2
        subst h2
        exact initializePool_events db cid _ _ heq
      next db2 evs0 heq =>
        injection h with h1 h2
        subst h2
        exact initializePool_events db cid _ _ heq

theorem releaseOne_leaseOne (db : Database) (cid : Str) (p : Pool)
    (hp : dictGet db.pools cid = some p) :
    releaseOne (leaseOne db cid) cid = db := by
  unfold leaseOne
  rw [hp]
  unfold releaseOne
  simp only []
  rw [dictGet_dictSet_self]
  simp only [dictSet_dictSet]
  have hl : p.leased + 1 - 1 = p.leased := by omega
  rw [hl]
  rw [dictSet_same db.pools cid p hp]

/-- Core of the lease discipline: when the identifier already has a pool,
a single `execute_query` call — whatever its fetch outcome — returns the
database to exactly its initial state. -/
theorem execute_query_restores (fetch : Except Str (List Row)) (db : Database)
    (conn_id : Str) (p : Pool) (hpool : dictGet db.pools conn_id = some p) :
    (execute_query fetch db conn_id).2.1 = db := by
  unfold execute_query get_connection_enter
  by_cases hne : conn_id = []
  · rw [if_pos hne]
  · rw [if_neg hne]
    have hk : dictHasKey db.pools conn_id = true := by
      rw [dictHasKey, hpool]
      rfl
    rw [hk]
    simp only [if_true]
    cases fetch with
    | ok rows =>
      simp only []
      exact releaseOne_leaseOne db conn_id p hpool
    | error msg =>
      simp only []
      exact releaseOne_leaseOne db conn_id p hpool

/-! Concrete fixtures used by witnesses and counterexamples. -/

/-- Descriptor `u@h/d` in normalized form. -/
def exCs1 : Str := "postgresql://u@h/d".data

/-- Descriptor `u@h/d?x` (same authority and path, extra query) in
normalized form. -/
def exCs2 : Str := "postgresql://u@h/d?x".data

/-- The identifier both fixtures hash to under the identity hash. -/
def exId : Str := "u@h/d".data

/-- State after registering `exCs1` in the fresh manager. -/
def exDb1 : Database := ⟨[], [(exId, exCs1)], [(exCs1, exId)]⟩

/-- State after additionally registering `exCs2`. -/
def exDb2 : Database := ⟨[], [(exId, exCs2)], [(exCs1, exId), (exCs2, exId)]⟩

/-- Parse of `exCs1`. -/
def exP1 : ParseResult := ⟨"postgresql".data, "u@h".data, "/d".data, [], [], []⟩

/-- Parse of `exCs2`. -/
def exP2 : ParseResult := ⟨"postgresql".data, "u@h".data, "/d".data, [], "x".data, []⟩

/-- A manager holding one registered identifier with a live pool. -/
def exDbPool : Database :=
  ⟨[(exId, mkPool exCs1)], [(exId, exCs1)], [(exCs1, exId)]⟩

/-! Claim C1. -/

/-- C1: two connection descriptors whose normalized forms parse to the
same authority (netloc) and database-name path, differing only in
trailing query parameters, are registered under the same identifier:
whatever the state in which each `register_connection` runs (the reverse
map being well-typed, as it is in every reachable state), both calls
return the identifier derived from the shared netloc-plus-path name. -/
theorem register_ignores_query_params (uuid5 : Str → Str) (db db1 db2 : Database)
    (d1 d2 i1 i2 : Str) (p1 p2 : ParseResult)
    (hT : RmTyped uuid5 db)
    (h1 : register_connection uuid5 db d1 = .ok (i1, db1))
    (h2 : register_connection uuid5 db1 d2 = .ok (i2, db2))
    (hp1 : urlparse (normalizeConnString d1) = .ok p1)
    (hp2 : urlparse (normalizeConnString d2) = .ok p2)
    (hnet : p1.netloc = p2.netloc) (hpath : p1.path = p2.path) :
    i1 = i2 := by
  have hT1 := register_preserves_rmTyped uuid5 db d1 i1 db1 hT h1
  have hu1 := register_ok_uuid uuid5 db d1 i1 db1 hT h1
  have hu2 := register_ok_uuid uuid5 db1 d2 i2 db2 hT1 h2
  rw [p2u_ok uuid5 _ p1 hp1] at hu1
  rw [p2u_ok uuid5 _ p2 hp2] at hu2
  injection hu1 with e1
  injection hu2 with e2
  rw [← e1, ← e2, hnet, hpath]

/-- Witness for C1: registering `u@h/d` and then `u@h/d?x` (differing
only in the query string) from the fresh manager yields the same
identifier. -/
theorem register_ignores_query_params_witness :
    register_connection (fun s => s) Database.empty ("u@h/d".data) = .ok (exId, exDb1)
    ∧ register_connection (fun s => s) exDb1 ("u@h/d?x".data) = .ok (exId, exDb2)
    ∧ urlparse (normalizeConnString ("u@h/d".data)) = .ok exP1
    ∧ urlparse (normalizeConnString ("u@h/d?x".data)) = .ok exP2
    ∧ exP1.netloc = exP2.netloc
    ∧ exP1.path = exP2.path
    ∧ exId = exId :=
  ⟨by decide, by decide, by decide, by decide, by decide, by decide,
   register_ignores_query_params (fun s => s) Database.empty exDb1 exDb2
     ("u@h/d".data) ("u@h/d?x".data) exId exId exP1 exP2
     (fun c k hck => by simp [dictGet, Database.empty] at hck)
     (by decide) (by decide) (by decide) (by decide) (by decide) (by decide)⟩

/-! Claim C2. -/

/-- C2 is false as stated: `initialize` holds no lock, so two concurrent
callers for a fresh identifier can both pass the
`conn_id not in self._pools` check before either assignment runs; the
schedule below completes with both callers done and two underlying
`asyncpg.create_pool` constructions, where the claim demands exactly
one. -/
theorem initialize_single_flight_counterexample :
    concRun
        [ConcEvent.check, ConcEvent.check, ConcEvent.finishCreate, ConcEvent.finishCreate]
        (concInit 2) =
      some ⟨0, 0, 2, true, 2⟩ := by decide

/-- C2 amended: N concurrent `initialize` calls for a fresh registered
identifier perform at least one (once all have completed, for N ≥ 1) and
at most N underlying pool constructions — not exactly one: the
check-then-create is not serialized, so interleaved callers each
construct a pool and the last assignment wins. -/
theorem initialize_pool_creations_bounded (n : Nat) (evs : List ConcEvent)
    (s : ConcState) (h : concRun evs (concInit n) = some s) :
    s.creations ≤ n
    ∧ (s.nStart = 0 → s.nCreating = 0 → 1 ≤ n → 1 ≤ s.creations) := by
  obtain ⟨h1, h2, h3, h4⟩ := concRun_inv n evs (concInit n) s (concInit_inv n) h
  exact ⟨by omega, fun ha hb hn => h4 (by omega)⟩

/-- Witness for C2 amended: a completed two-caller schedule with one
construction satisfies the bounds. -/
theorem initialize_pool_creations_bounded_witness :
    concRun [ConcEvent.check, ConcEvent.finishCreate, ConcEvent.check] (concInit 2) =
      some ⟨0, 0, 2, true, 1⟩
    ∧ ((⟨0, 0, 2, true, 1⟩ : ConcState).creations ≤ 2
       ∧ ((⟨0, 0, 2, true, 1⟩ : ConcState).nStart = 0 →
          (⟨0, 0, 2, true, 1⟩ : ConcState).nCreating = 0 → 1 ≤ 2 →
          1 ≤ (⟨0, 0, 2, true, 1⟩ : ConcState).creations)) :=
  ⟨by decide,
   initialize_pool_creations_bounded 2
     [ConcEvent.check, ConcEvent.finishCreate, ConcEvent.check]
     ⟨0, 0, 2, true, 1⟩ (by decide)⟩

/-! Claim C3. -/

/-- C3: querying an identifier that was never registered (absent from the
identifier-to-descriptor map; `PoolsRegistered` — an invariant of every
reachable state — then rules out a pool entry) fails with the
`ValueError("Unknown connection ID: ...")` raised by
`get_connection_string`, leaves the state unchanged, and performs no
network activity: no pool is created and no fetch is attempted. -/
theorem unknown_identifier_no_network (fetch : Except Str (List Row))
    (db : Database) (conn_id : Str)
    (hP : PoolsRegistered db) (hne : conn_id ≠ [])
    (habs : dictGet db.connection_map conn_id = none) :
    execute_query fetch db conn_id =
      (.error (.valueError ("Unknown connection ID: ".data ++ conn_id)), db, []) := by
  have hpool : dictHasKey db.pools conn_id = false := by
    cases hpk : dictHasKey db.pools conn_id
    · rfl
    · have hc := hP conn_id hpk
      simp [dictHasKey, habs] at hc
  exact execute_query_unknown_id fetch db conn_id hne habs hpool

/-- Witness for C3 at the fresh manager and identifier `x`. -/
theorem unknown_identifier_no_network_witness :
    (("x".data : Str) ≠ [])
    ∧ dictGet Database.empty.connection_map ("x".data) = none
    ∧ execute_query (Except.ok []) Database.empty ("x".data) =
        (.error (.valueError ("Unknown connection ID: ".data ++ ("x".data))),
         Database.empty, []) :=
  ⟨by decide, by decide,
   unknown_identifier_no_network (Except.ok []) Database.empty ("x".data)
     (fun k hk => by simp [dictHasKey, dictGet, Database.empty] at hk)
     (by decide) (by decide)⟩

/-! Claim C4. -/

/-- C4: after `close(conn_id)` for a registered identifier, the
identifier-to-descriptor mapping still holds the identifier, its pool
entry is gone, and a subsequent `initialize` succeeds by creating a
fresh pool from the surviving descriptor; `close` is a no-op when no
pool entry exists. -/
theorem close_keeps_mapping_and_reinitializes (db : Database) (conn_id cs : Str)
    (hne : conn_id ≠ [])
    (hcs : dictGet db.connection_map conn_id = some cs) :
    dictGet (close db (some conn_id)).connection_map conn_id = some cs
    ∧ dictHasKey (close db (some conn_id)).pools conn_id = false
    ∧ initializePool (close db (some conn_id)) conn_id =
        (.ok { close db (some conn_id) with
                 pools := dictSet (close db (some conn_id)).pools conn_id (mkPool cs) },
         [NetEvent.createPool cs])
    ∧ (dictHasKey db.pools conn_id = false → close db (some conn_id) = db) := by
  have h1 : dictGet (close db (some conn_id)).connection_map conn_id = some cs := by
    rw [close_connection_map]
    exact hcs
  have h2 := close_pools_self db conn_id hne
  refine ⟨h1, h2, ?_, ?_⟩
  · unfold initializePool get_connection_string
    simp only [if_neg hne, h2, Bool.false_eq_true, if_false, h1]
  · intro hfree
    unfold close
    simp only [hne, ne_eq, not_false_eq_true, if_true, hfree, Bool.false_eq_true, if_false]

/-- Witness for C4 at a one-identifier manager with a live pool. -/
theorem close_keeps_mapping_and_reinitializes_witness :
    (exId ≠ [])
    ∧ dictGet exDbPool.connection_map exId = some exCs1
    ∧ (dictGet (close exDbPool (some exId)).connection_map exId = some exCs1
       ∧ dictHasKey (close exDbPool (some exId)).pools exId = false
       ∧ initializePool (close exDbPool (some exId)) exId =
           (.ok { close exDbPool (some exId) with
                    pools := dictSet (close exDbPool (some exId)).pools exId (mkPool exCs1) },
            [NetEvent.createPool exCs1])
       ∧ (dictHasKey exDbPool.pools exId = false → close exDbPool (some exId) = exDbPool)) :=
  ⟨by decide, by decide,
   close_keeps_mapping_and_reinitializes exDbPool exId exCs1 (by decide) (by decide)⟩

/-! Claim C5. -/

/-- C5 is false as stated: from the fresh manager, two
`register_connection` calls with descriptors sharing authority and path
but differing in the query string reach a state whose maps are not
mutual inverses — the reverse map sends `postgresql://u@h/d` to the
identifier, yet the forward map sends that identifier to
`postgresql://u@h/d?x`. -/
theorem mutual_inverse_counterexample :
    register_connection (fun s => s) Database.empty ("u@h/d".data) = .ok (exId, exDb1)
    ∧ register_connection (fun s => s) exDb1 ("u@h/d?x".data) = .ok (exId, exDb2)
    ∧ dictGet exDb2.reverse_map exCs1 = some exId
    ∧ dictGet exDb2.connection_map exId = some exCs2
    ∧ exCs2 ≠ exCs1 := by decide

/-- C5 amended: in every state reachable by `register_connection`,
`disconnect`, `initialize` and `close`, every identifier with a pool
entry is present in the identifier-to-descriptor map, and every forward
entry is mirrored by a reverse entry for its descriptor; the maps need
not be full mutual inverses, because the reverse map can retain stale
descriptors pointing to an identifier whose current descriptor differs
(see the counterexample). -/
theorem reachable_maps_invariant (uuid5 : Str → Str) (db : Database)
    (h : Reachable uuid5 db) :
    PoolsRegistered db ∧ CmMirrored db :=
  ⟨(reachable_inv uuid5 db h).1, (reachable_inv uuid5 db h).2.1⟩

/-- Witness for C5 amended at the state reached by one registration. -/
theorem reachable_maps_invariant_witness :
    PoolsRegistered exDb1 ∧ CmMirrored exDb1 :=
  reachable_maps_invariant (fun s => s) exDb1
    (@Reachable.register_step (fun s => s) Database.empty ("u@h/d".data) exId exDb1
      Reachable.empty (by decide))

/-! Claim C6. -/

/-- C6 is false as stated: the empty descriptor is not rejected —
`register_connection` normalizes it to the bare scheme
`postgresql://`, registers it and returns an identifier (the hash of the
empty netloc-plus-path name), with no error of any kind. -/
theorem empty_descriptor_registered_counterexample :
    register_connection (fun s => s) Database.empty [] =
      .ok (([] : Str),
        ⟨[], [(([] : Str), ("postgresql://".data))],
         [(("postgresql://".data), ([] : Str))]⟩) := by decide

/-- C6 amended: `register_connection` performs no validation of its own
and no network activity; the only rejection is the URL parser's
`ValueError` (raised for descriptors whose netloc has unbalanced IPv6
brackets), which propagates before any state change, while the empty
descriptor parses successfully and is registered with an identifier. -/
theorem register_validation_behavior (uuid5 : Str → Str) (db : Database)
    (s : Str) (e : PyErr)
    (hmiss0 : dictGet db.reverse_map ("postgresql://".data) = none)
    (hmiss : dictGet db.reverse_map (normalizeConnString s) = none)
    (hbad : urlparse (normalizeConnString s) = .error e) :
    (register_connection uuid5 db []).isOk = true
    ∧ register_connection uuid5 db s = .error e := by
  constructor
  · have hn : normalizeConnString ([] : Str) = ("postgresql://".data) := by decide
    unfold register_connection
    rw [hn, hmiss0]
    rfl
  · unfold register_connection
    rw [hmiss]
    unfold postgres_connection_to_uuid
    rw [hbad]

/-- Witness for C6 amended: in the fresh manager, the bracket-mismatched
descriptor is rejected with the parser's error while the empty
descriptor is registered. -/
theorem register_validation_behavior_witness :
    dictGet Database.empty.reverse_map ("postgresql://".data) = none
    ∧ dictGet Database.empty.reverse_map (normalizeConnString ("[x".data)) = none
    ∧ urlparse (normalizeConnString ("[x".data)) =
        .error (.valueError ("Invalid IPv6 URL".data))
    ∧ ((register_connection (fun s => s) Database.empty []).isOk = true
       ∧ register_connection (fun s => s) Database.empty ("[x".data) =
           .error (.valueError ("Invalid IPv6 URL".data))) :=
  ⟨by decide, by decide, by decide,
   register_validation_behavior (fun s => s) Database.empty ("[x".data)
     (.valueError ("Invalid IPv6 URL".data)) (by decide) (by decide) (by decide)⟩

/-! Claim C7. -/

/-- C7: whenever `initialize` creates a pool for an identifier (no
existing entry), the pool is bound to that identifier's resolved
descriptor and carries the bounded size range 2..10, the 60-second
per-statement timeout, and the server-side session property forcing
read-only transactions by default. -/
theorem pool_creation_config (db : Database) (conn_id cs : Str)
    (hne : conn_id ≠ [])
    (hnopool : dictHasKey db.pools conn_id = false)
    (hcs : dictGet db.connection_map conn_id = some cs) :
    initializePool db conn_id =
      (.ok { db with pools := dictSet db.pools conn_id (mkPool cs) },
       [NetEvent.createPool cs])
    ∧ (mkPool cs).dsn = cs
    ∧ (mkPool cs).min_size = 2
    ∧ (mkPool cs).max_size = 10
    ∧ (mkPool cs).min_size ≤ (mkPool cs).max_size
    ∧ (mkPool cs).command_timeout = 60
    ∧ (mkPool cs).default_transaction_read_only = ("true".data) := by
  refine ⟨?_, rfl, rfl, rfl, by norm_num [mkPool], rfl, rfl⟩
  unfold initializePool get_connection_string
  simp only [if_neg hne, hnopool, Bool.false_eq_true, if_false, hcs]

/-- Witness for C7 at a one-identifier manager with no pool yet. -/
theorem pool_creation_config_witness :
    (exId ≠ [])
    ∧ dictHasKey exDb1.pools exId = false
    ∧ dictGet exDb1.connection_map exId = some exCs1
    ∧ (initializePool exDb1 exId =
         (.ok { exDb1 with pools := dictSet exDb1.pools exId (mkPool exCs1) },
          [NetEvent.createPool exCs1])
       ∧ (mkPool exCs1).dsn = exCs1
       ∧ (mkPool exCs1).min_size = 2
       ∧ (mkPool exCs1).max_size = 10
       ∧ (mkPool exCs1).min_size ≤ (mkPool exCs1).max_size
       ∧ (mkPool exCs1).command_timeout = 60
       ∧ (mkPool exCs1).default_transaction_read_only = ("true".data)) :=
  ⟨by decide, by decide, by decide,
   pool_creation_config exDb1 exId exCs1 (by decide) (by decide) (by decide)⟩

/-! Claim C8. -/

/-- C8: when the engine fails a query, `execute_query` makes exactly one
fetch attempt (no retry) and re-raises the failure to its caller
carrying the underlying engine message. -/
theorem query_failure_not_retried (db db1 : Database) (conn_id msg : Str)
    (evs : List NetEvent)
    (hok : get_connection_enter db conn_id = (.ok db1, evs)) :
    execute_query (.error msg) db conn_id =
      (.error (.engineError msg), releaseOne db1 conn_id, evs ++ [NetEvent.fetchAttempt])
    ∧ (evs ++ [NetEvent.fetchAttempt]).count NetEvent.fetchAttempt = 1 := by
  constructor
  · unfold execute_query
    rw [hok]
  · rcases get_connection_enter_events db conn_id _ _ hok with he | ⟨d, he⟩
    · subst he
      rfl
    · subst he
      rfl

/-- Witness for C8 at a manager whose pool already exists. -/
theorem query_failure_not_retried_witness :
    get_connection_enter exDbPool exId = (.ok (leaseOne exDbPool exId), [])
    ∧ (execute_query (.error ("boom".data)) exDbPool exId =
         (.error (.engineError ("boom".data)), releaseOne (leaseOne exDbPool exId) exId,
          [] ++ [NetEvent.fetchAttempt])
       ∧ (([] ++ [NetEvent.fetchAttempt] : List NetEvent)).count NetEvent.fetchAttempt = 1) :=
  ⟨by decide,
   query_failure_not_retried exDbPool (leaseOne exDbPool exId) exId ("boom".data) []
     (by decide)⟩

/-! Claim C9. -/

/-- C9: when the identifier has a pool, one `execute_query` call —
whatever its fetch outcome, a failure included — returns the database,
and in particular the pool's leased count and free capacity, to exactly
its initial state; iterating any number of failing queries likewise
leaves the state unchanged, so the pool can satisfy afterwards every
lease it could satisfy before, and no connection stays held across
calls. -/
theorem lease_always_released (fetch : Except Str (List Row)) (db : Database)
    (conn_id : Str) (p : Pool) (n : Nat) (msg : Str)
    (hpool : dictGet db.pools conn_id = some p) :
    (execute_query fetch db conn_id).2.1 = db
    ∧ (fun d => (execute_query (Except.error msg) d conn_id).2.1)^[n] db = db := by
  refine ⟨execute_query_restores fetch db conn_id p hpool, ?_⟩
  exact Function.iterate_fixed (execute_query_restores (Except.error msg) db conn_id p hpool) n

/-- Witness for C9: five failing queries in a row leave the one-pool
manager unchanged. -/
theorem lease_always_released_witness :
    dictGet exDbPool.pools exId = some (mkPool exCs1)
    ∧ ((execute_query (Except.error ("boom".data)) exDbPool exId).2.1 = exDbPool
       ∧ (fun d => (execute_query (Except.error ("boom".data)) d exId).2.1)^[5] exDbPool =
           exDbPool) :=
  ⟨by decide,
   lease_always_released (Except.error ("boom".data)) exDbPool exId (mkPool exCs1) 5
     ("boom".data) (by decide)⟩

/-! Claim C10. -/

/-- C10: disconnecting a registered identifier reports success and
removes the pool entry, the identifier's forward-map entry and the
reverse-map entry of its descriptor, so a subsequent query for that
identifier fails with the `Unknown connection ID` error, with no network
activity and no transparent pool recreation. -/
theorem disconnect_forgets_identifier (fetch : Except Str (List Row))
    (db : Database) (conn_id cs : Str)
    (hne : conn_id ≠ [])
    (hcs : dictGet db.connection_map conn_id = some cs) :
    (disconnect db conn_id).1 = true
    ∧ dictGet (disconnect db conn_id).2.connection_map conn_id = none
    ∧ dictGet (disconnect db conn_id).2.reverse_map cs = none
    ∧ dictHasKey (disconnect db conn_id).2.pools conn_id = false
    ∧ execute_query fetch (disconnect db conn_id).2 conn_id =
        (.error (.valueError ("Unknown connection ID: ".data ++ conn_id)),
         (disconnect db conn_id).2, []) := by
  have hk : dictHasKey db.connection_map conn_id = true := by
    simp [dictHasKey, hcs]
  have hd : disconnect db conn_id =
      (true, disconnectErase (close db (some conn_id)) conn_id) := by
    unfold disconnect
    rw [if_pos hk]
  have hgc : dictGet (close db (some conn_id)).connection_map conn_id = some cs := by
    rw [close_connection_map]
    exact hcs
  have hd2 : dictGet (disconnectErase (close db (some conn_id)) conn_id).connection_map
        conn_id = none
      ∧ dictGet (disconnectErase (close db (some conn_id)) conn_id).reverse_map cs = none
      ∧ (disconnectErase (close db (some conn_id)) conn_id).pools =
          (close db (some conn_id)).pools := by
    unfold disconnectErase
    rw [hgc]
    simp only []
    by_cases hrm : dictHasKey (close db (some conn_id)).reverse_map cs = true
    · rw [if_pos hrm]
      exact ⟨dictGet_dictErase_self _ _, dictGet_dictErase_self _ _, rfl⟩
    · rw [if_neg hrm]
      refine ⟨dictGet_dictErase_self _ _, ?_, rfl⟩
      cases hgr : dictGet (close db (some conn_id)).reverse_map cs with
      | none => rfl
      | some i =>
        exfalso
        apply hrm
        simp [dictHasKey, hgr]
  obtain ⟨ha, hb, hc⟩ := hd2
  have hpools : dictHasKey (disconnectErase (close db (some conn_id)) conn_id).pools
      conn_id = false := by
    rw [hc]
    exact close_pools_self db conn_id hne
  rw [hd]
  exact ⟨rfl, ha, hb, hpools,
    execute_query_unknown_id fetch _ conn_id hne ha hpools⟩

/-- Witness for C10 at the one-identifier manager with a live pool. -/
theorem disconnect_forgets_identifier_witness :
    (exId ≠ [])
    ∧ dictGet exDbPool.connection_map exId = some exCs1
    ∧ ((disconnect exDbPool exId).1 = true
       ∧ dictGet (disconnect exDbPool exId).2.connection_map exId = none
       ∧ dictGet (disconnect exDbPool exId).2.reverse_map exCs1 = none
       ∧ dictHasKey (disconnect exDbPool exId).2.pools exId = false
       ∧ execute_query (Except.ok []) (disconnect exDbPool exId).2 exId =
           (.error (.valueError ("Unknown connection ID: ".data ++ exId)),
            (disconnect exDbPool exId).2, [])) :=
  ⟨by decide, by decide,
   disconnect_forgets_identifier (Except.ok []) exDbPool exId exCs1
     (by decide) (by decide)⟩

end PgMcp
